import Mathlib

/-!
Shallow embedding of the spec2llms generator core (Go package
`internal/generator` plus the grouped generator variant) and of the data
model from `internal/parser`.  Go maps are modelled as association lists
whose order stands for one iteration order of the map; Go `*T` pointers
become `Option T`; Go `any` example values become the closed variant
`ExampleValue`.  All string literals containing braces use the escapes
\x7b and \x7d for `{` and `}`.
-/

/-- Go `any` example payloads as a closed variant.  Numeric values carry
their Go `%v` rendering as a string, because floating-point formatting is
performed by the Go runtime and is not re-modelled here; `formatExample`
and `%v` both print a number via that same rendering. -/
inductive ExampleValue : Type where
  | str (s : String)
  | num (goFormatted : String)
  | boolV (b : Bool)
  | other (goFormatted : String)
deriving DecidableEq, Repr

/-- Go struct `parser.Schema`.  `Properties` (a Go map) is a list of
name/schema pairs in some iteration order; `Items` and the example are
optional. -/
inductive Schema : Type where
  | mk (type format description : String)
       (properties : List (String × Schema))
       (items : Option Schema)
       (required : List String)
       (enum : List String)
       (exampleVal : Option ExampleValue)
       (ref : String)
deriving Repr

def Schema.type : Schema → String
  | .mk t _ _ _ _ _ _ _ _ => t

def Schema.format : Schema → String
  | .mk _ f _ _ _ _ _ _ _ => f

def Schema.description : Schema → String
  | .mk _ _ d _ _ _ _ _ _ => d

def Schema.properties : Schema → List (String × Schema)
  | .mk _ _ _ p _ _ _ _ _ => p

def Schema.items : Schema → Option Schema
  | .mk _ _ _ _ i _ _ _ _ => i

def Schema.required : Schema → List String
  | .mk _ _ _ _ _ r _ _ _ => r

def Schema.enum : Schema → List String
  | .mk _ _ _ _ _ _ e _ _ => e

def Schema.exampleVal : Schema → Option ExampleValue
  | .mk _ _ _ _ _ _ _ ex _ => ex

def Schema.ref : Schema → String
  | .mk _ _ _ _ _ _ _ _ r => r

instance listEqNilDec (l : List α) : Decidable (l = []) :=
  match l with
  | [] => isTrue rfl
  | _ :: _ => isFalse (by simp)

/-- Go `strings.Repeat`. -/
def strRepeat (s : String) : Nat → String
  | 0 => ""
  | n + 1 => s ++ strRepeat s n

/-- Lookup in the association-list model of a Go map (`m[k]`).  Keys in a
Go map are unique, so the first match is the map entry. -/
def goMapGet {α : Type} (m : List (String × α)) (key : String) : Option α :=
  match m with
  | [] => none
  | (k, v) :: rest => if k = key then some v else goMapGet rest key

/-- `goMapGet` specialised to schema property maps. -/
def lookupProp (props : List (String × Schema)) (name : String) : Option Schema :=
  goMapGet props name

/-- Go `sort.Strings`: ascending lexicographic sort.  Any correct sort of
strings produces the same list (equal strings are indistinguishable), so
insertion sort computes exactly the Go result. -/
def sortStrings (l : List String) : List String :=
  List.insertionSort (· ≤ ·) l

/-- Go `formatExample` (generator.go lines 427-438): strings are wrapped in
plain double quotes with no escaping, numbers/booleans print via `%v`. -/
def formatExample (ex : ExampleValue) : String :=
  match ex with
  | .str s => "\"" ++ s ++ "\""
  | .num r => r
  | .boolV b => if b then "true" else "false"
  | .other r => r

theorem sizeOf_lt_of_items {s it : Schema} (h : s.items = some it) :
    sizeOf it < sizeOf s := by
  cases s with
  | mk t f d p i r e ex rf =>
    cases i with
    | none => simp [Schema.items] at h
    | some x =>
      simp [Schema.items] at h
      subst h
      simp
      omega

/-- Go `getTypeExample` (generator.go lines 376-425). -/
def getTypeExample : Option Schema → String
  | none => "null"
  | some s =>
    match s.exampleVal with
    | some ex => formatExample ex
    | none =>
      match s.enum with
      | e :: _ => "\"" ++ e ++ "\""
      | [] =>
        if s.type = "string" then
          if s.format = "date-time" then "\"2024-01-15T10:00:00Z\""
          else if s.format = "date" then "\"2024-01-15\""
          else if s.format = "email" then "\"user@example.com\""
          else if s.format = "uri" ∨ s.format = "url" then "\"https://example.com\""
          else "\"string\""
        else if s.type = "integer" then "0"
        else if s.type = "number" then "0.0"
        else if s.type = "boolean" then "true"
        else if s.type = "array" then
          match h : s.items with
          | some it => "[" ++ getTypeExample (some it) ++ "]"
          | none => "[]"
        else if s.type = "object" then "\x7b\x7d"
        else if s.type = "" then "\x7b\x7d"
        else "null"
termination_by os => sizeOf os
decreasing_by
  simp only [Option.some.sizeOf_spec]
  have := sizeOf_lt_of_items h
  omega

theorem sizeOf_lt_of_lookup {props : List (String × Schema)} {name : String} {p : Schema}
    (h : lookupProp props name = some p) : sizeOf p < sizeOf props := by
  unfold lookupProp at h
  induction props with
  | nil => simp [goMapGet] at h
  | cons hd tl ih =>
    obtain ⟨n, s⟩ := hd
    simp only [goMapGet] at h
    split at h
    · cases h
      simp
      omega
    · have := ih h
      simp
      omega

theorem sizeOf_properties_lt (s : Schema) : sizeOf s.properties < sizeOf s := by
  cases s with
  | mk t f d p i r e ex rf =>
    simp [Schema.properties]
    omega

mutual

/-- Go `renderJSONSchema` (generator.go lines 277-335; identical in the
grouped generator).  Property names are collected, sorted ascending and
then looked up, exactly as the source does. -/
def renderJSONSchema : Option Schema → Nat → Nat → String
  | none, _, _ => ""
  | some s, indent, maxDepth =>
    if indent > maxDepth * 2 then ""
    else
      let pre := strRepeat "  " indent
      if s.type = "object" ∧ s.properties ≠ [] then
        let props := sortStrings (s.properties.map Prod.fst)
        "\x7b\n" ++ renderProps s.properties props indent maxDepth ++ pre ++ "\x7d"
      else if s.type = "array" then
        match h : s.items with
        | some it =>
          if it.type = "object" ∧ it.properties ≠ [] then
            "[\n" ++ pre ++ "  " ++ renderJSONSchema (some it) (indent + 1) maxDepth
              ++ "\n" ++ pre ++ "]"
          else "[" ++ getTypeExample (some it) ++ "]"
        | none => "[]"
      else if s.type = "object" then "\x7b\x7d"
      else getTypeExample (some s)
termination_by os _ _ => (sizeOf os, 0)
decreasing_by
  · -- to renderProps: the properties list is a strict subterm
    refine Prod.Lex.left _ _ ?_
    have := sizeOf_properties_lt s
    simp
    omega
  · -- to renderJSONSchema on the array items
    refine Prod.Lex.left _ _ ?_
    have := sizeOf_lt_of_items h
    simp
    omega

/-- The property loop inside `renderJSONSchema`: one line per sorted name,
with a comma on every line but the last and the empty-value fallback of
the source. -/
def renderProps (propsMap : List (String × Schema)) (names : List String)
    (indent maxDepth : Nat) : String :=
  match names with
  | [] => ""
  | name :: rest =>
    let prop := lookupProp propsMap name
    let value0 := renderPropertyValue prop (indent + 1) maxDepth
    let value :=
      if value0 = "" then
        match prop with
        | some p =>
          if p.type = "array" then "[\x7b\x7d]"
          else if p.type = "object" then "\x7b\x7d"
          else "null"
        | none => "null"
      else value0
    let comma := if rest = [] then "" else ","
    strRepeat "  " indent ++ "  \"" ++ name ++ "\": " ++ value ++ comma ++ "\n"
      ++ renderProps propsMap rest indent maxDepth
termination_by (sizeOf propsMap + 1, names.length + 3)
decreasing_by
  · -- to renderPropertyValue on a looked-up property
    refine Prod.Lex.left _ _ ?_
    cases hl : lookupProp propsMap name with
    | none =>
      simp [hl]
      cases propsMap <;> simp
    | some p =>
      have := sizeOf_lt_of_lookup hl
      simp [hl]
      omega
  · -- to renderProps on the remaining names
    refine Prod.Lex.right _ ?_
    simp

/-- Go `renderPropertyValue` (generator.go lines 337-374). -/
def renderPropertyValue : Option Schema → Nat → Nat → String
  | none, _, _ => "null"
  | some p, indent, maxDepth =>
    match p.exampleVal with
    | some ex => formatExample ex
    | none =>
      if p.type = "object" ∧ p.properties ≠ [] ∧ indent < maxDepth * 2 then
        renderJSONSchema (some p) indent maxDepth
      else if p.type = "array" then
        match p.items with
        | some it =>
          if it.type = "object" ∧ it.properties ≠ [] then
            renderJSONSchema (some p) indent maxDepth
          else
            let ex := getTypeExample (some it)
            "[" ++ (if ex = "" ∨ ex = "null" then "\x7b\x7d" else ex) ++ "]"
        | none => "[\x7b\x7d]"
      else
        let r := getTypeExample (some p)
        if r = "" then "null" else r
termination_by os _ _ => (sizeOf os, 2)
decreasing_by
  · -- to renderJSONSchema on the same schema (object branch)
    exact Prod.Lex.right _ (by omega)
  · -- to renderJSONSchema on the same schema (array branch)
    exact Prod.Lex.right _ (by omega)

end

/-! ### Go string helpers, modelled on byte-free character lists -/

/-- Go `strings.HasPrefix`. -/
def hasPrefixGo (s pre : String) : Bool :=
  pre.data.isPrefixOf s.data

/-- Go `strings.TrimPrefix`: removes one leading occurrence if present. -/
def trimPrefixGo (s pre : String) : String :=
  if hasPrefixGo s pre then ⟨s.data.drop pre.data.length⟩ else s

/-- Go `strings.TrimSuffix`: removes one trailing occurrence if present. -/
def trimSuffixGo (s suf : String) : String :=
  if suf.data.isSuffixOf s.data then ⟨s.data.take (s.data.length - suf.data.length)⟩ else s

/-- Go `strings.Join`. -/
def goJoin (parts : List String) (sep : String) : String :=
  match parts with
  | [] => ""
  | [x] => x
  | x :: rest => x ++ sep ++ goJoin rest sep

/-- Go `strings.ToLower` restricted to ASCII letters (all inputs used by
the filename derivation of the generator are ASCII paths). -/
def goToLower (s : String) : String :=
  ⟨s.data.map Char.toLower⟩

/-- The loop of Go `strings.Replace`/`ReplaceAll`: leftmost-first,
non-overlapping replacement.  The fuel argument is only a structural
recursion bound; it is always called with more fuel than characters, and
the patterns used by the generator (`{name}`) are never empty, so each
step consumes at least one character. -/
def replaceLoop (pat rep : List Char) : Nat → List Char → List Char
  | 0, s => s
  | _ + 1, [] => []
  | f + 1, c :: rest =>
    if pat.isPrefixOf (c :: rest) then rep ++ replaceLoop pat rep f (List.drop pat.length (c :: rest))
    else c :: replaceLoop pat rep f rest

/-- Go `strings.ReplaceAll`. -/
def goReplaceAll (s old new : String) : String :=
  ⟨replaceLoop old.data new.data (s.data.length + 1) s.data⟩

/-- The loop of Go `strings.Split`: `acc` is the reversed current field. -/
def splitLoop (sep : List Char) : Nat → List Char → List Char → List (List Char)
  | 0, acc, s => [acc.reverse ++ s]
  | _ + 1, acc, [] => [acc.reverse]
  | f + 1, acc, c :: rest =>
    if sep.isPrefixOf (c :: rest) then
      acc.reverse :: splitLoop sep f [] (List.drop sep.length (c :: rest))
    else splitLoop sep f (c :: acc) rest

/-- Go `strings.Split` (with a non-empty separator, as used by the
generator).  `Split("", sep) = [""]`, as in Go. -/
def goSplit (s sep : String) : List String :=
  (splitLoop sep.data (s.data.length + 1) [] s.data).map fun cs => ⟨cs⟩

/-! ### The rest of the parser data model -/

/-- Go struct `parser.Parameter`.  The Go field `In` is `inLoc` here
(`in` is reserved in Lean); `Example` is `exampleVal`. -/
structure Parameter where
  name : String
  inLoc : String
  description : String
  required : Bool
  type : String
  format : String
  enum : List String
  default : Option ExampleValue
  exampleVal : Option ExampleValue

/-- Go struct `parser.MediaType`. -/
structure MediaType where
  schema : Option Schema
  exampleVal : Option ExampleValue

/-- Go struct `parser.RequestBody`; `Content` (a Go map) is a list of
content-type/media pairs in some iteration order. -/
structure RequestBody where
  description : String
  required : Bool
  content : List (String × MediaType)

/-- Go struct `parser.Response`. -/
structure Response where
  description : String
  content : List (String × MediaType)

/-- Go struct `parser.Tag`. -/
structure Tag where
  name : String
  description : String

/-- Go struct `parser.SecurityScheme`; the Go field `In` is `inLoc`. -/
structure SecurityScheme where
  name : String
  type : String
  description : String
  inLoc : String
  paramName : String
  scheme : String

/-- Go struct `parser.Endpoint`; `Responses` (a Go map) is a list of
status-code/response pairs in some iteration order. -/
structure Endpoint where
  method : String
  path : String
  summary : String
  description : String
  tags : List String
  parameters : List Parameter
  requestBody : Option RequestBody
  responses : List (String × Response)
  deprecated : Bool

/-- Go struct `parser.API`. -/
structure API where
  title : String
  description : String
  version : String
  baseURL : String
  tags : List Tag
  endpoints : List Endpoint
  securitySchemes : List SecurityScheme

/-- Go struct `config.Config`. -/
structure Config where
  source : String
  output : String
  baseURL : String
  docsBaseURL : String
  title : String
  language : String
  groupBy : String
  skipValidation : Bool

/-- Go struct `generator.Generator`. -/
structure Generator where
  cfg : Config
  api : API

/-! ### Generator functions -/

/-- Go constant `maxNestedDepth` (generator.go line 247). -/
def maxNestedDepth : Nat := 4

/-- Go `methodOrder` (generator.go lines 94-100 / part_001 lines 82-88):
fixed method precedence, unknown methods share 99. -/
def methodOrder (method : String) : Nat :=
  if method = "GET" then 1
  else if method = "POST" then 2
  else if method = "PUT" then 3
  else if method = "PATCH" then 4
  else if method = "DELETE" then 5
  else 99

/-- The comparator passed to `sort.Slice` by `sortEndpoints` and
`groupByTags`: by path, ties by method precedence. -/
def lessEndpoint (a b : Endpoint) : Prop :=
  if a.path = b.path then methodOrder a.method < methodOrder b.method
  else a.path < b.path

instance (a b : Endpoint) : Decidable (lessEndpoint a b) := by
  unfold lessEndpoint
  infer_instance

/-- The contract of Go `sort.Slice` (an unstable sort): the output is a
permutation of the input in which no later element compares strictly
less than an earlier one.  Go does not guarantee anything further —
in particular not stability — so the sort is modelled relationally. -/
def SortSliceSpec (input output : List Endpoint) : Prop :=
  output.Perm input ∧ output.Pairwise (fun a b => ¬ lessEndpoint b a)

/-- The tags under which `groupByTags` (part_001 lines 56-67) files an
endpoint: its own tags, or the synthetic tag `other` when it has none. -/
def tagsOrOther (ep : Endpoint) : List String :=
  if ep.tags = [] then ["other"] else ep.tags

/-- The contents of `grouped[tag]` as built by the appending loop of
`groupByTags`, before the in-group `sort.Slice`: one copy of `ep` per
occurrence of `tag` in `tagsOrOther ep`, in input order. -/
def groupMembers (eps : List Endpoint) (tag : String) : List Endpoint :=
  eps.flatMap fun ep => ((tagsOrOther ep).filter (fun t => t = tag)).map fun _ => ep

/-- The distinct keys of the `grouped` map built by `groupByTags`; the
`Generate` loop writes exactly one group file per key. -/
def groupKeys (eps : List Endpoint) : List String :=
  (eps.flatMap tagsOrOther).dedup

/-- Go `getEndpointBasedFilename` (part_001 lines 516-555). -/
def getEndpointBasedFilename (endpoints : List Endpoint) : String :=
  match endpoints with
  | [] => "other"
  | first :: _ =>
    let path := trimPrefixGo first.path "/"
    let parts := goSplit path "/"
    match parts with
    | [] => "root"
    | _ =>
      let cleanParts := parts.filter fun part => !hasPrefixGo part "\x7b"
      if cleanParts = [] then "root"
      else
        let maxParts := if cleanParts.length < 2 then cleanParts.length else 2
        goToLower (goJoin (cleanParts.take maxParts) "-")

/-- Modelled from the spec (§4.2 group filename derivation, quoted by the
claim): take the first endpoint of the already-sorted group; strip the
leading path separator; split on `/`; drop segments that start with `\x7b`;
join the first two remaining segments with `-` and lowercase; `root` when
no segments remain; `other` for an empty group. -/
def specGroupFilename (endpoints : List Endpoint) : String :=
  match endpoints with
  | [] => "other"
  | first :: _ =>
    let segments :=
      (goSplit (trimPrefixGo first.path "/") "/").filter fun seg => !hasPrefixGo seg "\x7b"
    if segments = [] then "root"
    else goToLower (goJoin (segments.take 2) "-")

/-- Go `fmt.Sprintf("%v", x)` on an example payload: strings print raw
(unquoted), numbers via their runtime rendering, booleans as
`true`/`false`. -/
def sprintfV (ex : ExampleValue) : String :=
  match ex with
  | .str s => s
  | .num r => r
  | .boolV b => if b then "true" else "false"
  | .other r => r

/-- The per-parameter value substituted for `\x7bname\x7d` in the path by
`generateCurlExample`: own example, else `1` for integers, else the
literal `example`. -/
def pathParamValue (p : Parameter) : String :=
  match p.exampleVal with
  | some ex => sprintfV ex
  | none => if p.type = "integer" then "1" else "example"

/-- The path-substitution loop of `generateCurlExample` (generator.go
lines 505-518). -/
def substitutePathParams (params : List Parameter) (path : String) : String :=
  match params with
  | [] => path
  | p :: rest =>
    let path1 :=
      if p.inLoc = "path" then
        goReplaceAll path ("\x7b" ++ p.name ++ "\x7d") (pathParamValue p)
      else path
    substitutePathParams rest path1

/-- The per-parameter value used for query parameters by
`generateCurlExample` (generator.go lines 520-538). -/
def queryParamValue (p : Parameter) : String :=
  match p.exampleVal with
  | some ex => sprintfV ex
  | none =>
    match p.enum with
    | e :: _ => e
    | [] =>
      if p.type = "integer" ∨ p.type = "number" then "1"
      else if p.type = "boolean" then "true"
      else "value"

/-- The auth-header loop of `generateCurlExample` (generator.go lines
552-562): the first scheme that is apiKey-in-header or http-bearer
contributes its header, then the loop breaks; other schemes add
nothing. -/
def authHeaderGo (schemes : List SecurityScheme) : String :=
  match schemes with
  | [] => ""
  | s :: rest =>
    if s.type = "apiKey" ∧ s.inLoc = "header" then
      " \\\n  -H \"" ++ s.paramName ++ ": YOUR_API_KEY\""
    else if s.type = "http" ∧ s.scheme = "bearer" then
      " \\\n  -H \"Authorization: Bearer YOUR_TOKEN\""
    else authHeaderGo rest

/-- Go `generateCurlExample` (generator.go lines 490-579).  The grouped
generator copy differs only in the body render depth (2 instead of
`maxNestedDepth`); see `generateCurlExampleGrouped`. -/
def generateCurlExample (g : Generator) (ep : Endpoint) : String :=
  let baseURL0 := if g.cfg.baseURL = "" then g.api.baseURL else g.cfg.baseURL
  let baseURL1 :=
    if baseURL0 = "" ∨ hasPrefixGo baseURL0 "/" then "https://api.example.com" ++ baseURL0
    else baseURL0
  let baseURL := trimSuffixGo baseURL1 "/"
  let path := substitutePathParams ep.parameters ep.path
  let queryParams :=
    (ep.parameters.filter fun p => p.inLoc = "query").map fun p =>
      p.name ++ "=" ++ queryParamValue p
  let url := baseURL ++ path ++ (if queryParams = [] then "" else "?" ++ goJoin queryParams "&")
  let bodyPart :=
    match ep.requestBody with
    | some rb =>
      if ep.method = "POST" ∨ ep.method = "PUT" ∨ ep.method = "PATCH" then
        match rb.content with
        | (_, media) :: _ =>
          match media.schema with
          | some sch =>
            let body := renderJSONSchema (some sch) 0 maxNestedDepth
            if body ≠ "" then " \\\n  -d \x27" ++ body ++ "\x27" else ""
          | none => ""
        | [] => ""
      else ""
    | none => ""
  "```bash\n" ++ "curl -X " ++ ep.method ++ " \"" ++ url ++ "\""
    ++ " \\\n  -H \"Content-Type: application/json\""
    ++ authHeaderGo g.api.securitySchemes
    ++ bodyPart
    ++ "\n```\n\n"

/-- The grouped-generator `generateCurlExample` (part_001 lines
557-646): identical except that the request body renders with
`maxDepth = 2`. -/
def generateCurlExampleGrouped (g : Generator) (ep : Endpoint) : String :=
  let baseURL0 := if g.cfg.baseURL = "" then g.api.baseURL else g.cfg.baseURL
  let baseURL1 :=
    if baseURL0 = "" ∨ hasPrefixGo baseURL0 "/" then "https://api.example.com" ++ baseURL0
    else baseURL0
  let baseURL := trimSuffixGo baseURL1 "/"
  let path := substitutePathParams ep.parameters ep.path
  let queryParams :=
    (ep.parameters.filter fun p => p.inLoc = "query").map fun p =>
      p.name ++ "=" ++ queryParamValue p
  let url := baseURL ++ path ++ (if queryParams = [] then "" else "?" ++ goJoin queryParams "&")
  let bodyPart :=
    match ep.requestBody with
    | some rb =>
      if ep.method = "POST" ∨ ep.method = "PUT" ∨ ep.method = "PATCH" then
        match rb.content with
        | (_, media) :: _ =>
          match media.schema with
          | some sch =>
            let body := renderJSONSchema (some sch) 0 2
            if body ≠ "" then " \\\n  -d \x27" ++ body ++ "\x27" else ""
          | none => ""
        | [] => ""
      else ""
    | none => ""
  "```bash\n" ++ "curl -X " ++ ep.method ++ " \"" ++ url ++ "\""
    ++ " \\\n  -H \"Content-Type: application/json\""
    ++ authHeaderGo g.api.securitySchemes
    ++ bodyPart
    ++ "\n```\n\n"

/-- One row of the fields table; the looked-up property is always present
(the name was taken from the same map). -/
def fieldsTableRow (propsMap : List (String × Schema)) (pre name : String) : String :=
  match goMapGet propsMap name with
  | none => ""
  | some prop =>
    let fieldName := if pre ≠ "" then pre ++ "." ++ name else name
    let typeStr0 := prop.type ++ (if prop.format ≠ "" then " (" ++ prop.format ++ ")" else "")
    let typeStr :=
      match prop.items with
      | some it => if prop.type = "array" then "array[" ++ it.type ++ "]" else typeStr0
      | none => typeStr0
    let desc := prop.description
      ++ (if prop.enum ≠ [] then " Values: `" ++ goJoin prop.enum "`, `" ++ "`" else "")
    "| " ++ fieldName ++ " | " ++ typeStr ++ " | " ++ desc ++ " |\n"

/-- Go `generateFieldsTable` (generator.go lines 440-480): a flat table
over the sorted property names. -/
def generateFieldsTable (os : Option Schema) (pre : String) : String :=
  match os with
  | none => ""
  | some s =>
    if s.properties = [] then ""
    else
      "| Field | Type | Description |\n|-------|------|-------------|\n"
        ++ goJoin ((sortStrings (s.properties.map Prod.fst)).map
              (fieldsTableRow s.properties pre)) ""
        ++ "\n"

/-- Go `generateSchemaDoc` (generator.go lines 249-275): renders the
example with the constant `maxNestedDepth`. -/
def generateSchemaDoc : Option Schema → Nat → String
  | none, _ => ""
  | some s, depth =>
    if depth > 4 then ""
    else if s.type = "object" ∧ s.properties ≠ [] then
      "```json\n" ++ renderJSONSchema (some s) 0 maxNestedDepth ++ "```\n\n"
        ++ generateFieldsTable (some s) ""
    else if s.type = "array" then
      match h : s.items with
      | some it =>
        let itemType := if it.type = "" then "object" else it.type
        "Array of `" ++ itemType ++ "`\n\n"
          ++ (if it.type = "object" ∧ it.properties ≠ [] then
                generateSchemaDoc (some it) (depth + 1)
              else "")
      | none => ""
    else ""
termination_by os _ => sizeOf os
decreasing_by
  simp only [Option.some.sizeOf_spec]
  have := sizeOf_lt_of_items h
  omega

/-- The grouped-generator `generateSchemaDoc` (part_001 lines 274-300):
identical except that it passes its own `depth` argument — not the
constant — as the `maxDepth` of the renderer. -/
def generateSchemaDocGrouped : Option Schema → Nat → String
  | none, _ => ""
  | some s, depth =>
    if depth > 4 then ""
    else if s.type = "object" ∧ s.properties ≠ [] then
      "```json\n" ++ renderJSONSchema (some s) 0 depth ++ "```\n\n"
        ++ generateFieldsTable (some s) ""
    else if s.type = "array" then
      match h : s.items with
      | some it =>
        let itemType := if it.type = "" then "object" else it.type
        "Array of `" ++ itemType ++ "`\n\n"
          ++ (if it.type = "object" ∧ it.properties ≠ [] then
                generateSchemaDocGrouped (some it) (depth + 1)
              else "")
      | none => ""
    else ""
termination_by os _ => sizeOf os
decreasing_by
  simp only [Option.some.sizeOf_spec]
  have := sizeOf_lt_of_items h
  omega

/-- The content-type blocks of a Request Body or Responses section
(generator.go lines 207-212 and 230-235), in the map
order. -/
def contentBlocks (content : List (String × MediaType)) : String :=
  match content with
  | [] => ""
  | (contentType, media) :: rest =>
    "Content-Type: `" ++ contentType ++ "`\n\n"
      ++ (match media.schema with
          | some s => generateSchemaDoc (some s) 0
          | none => "")
      ++ contentBlocks rest

/-- One row of the parameters table (generator.go lines 186-197). -/
def parameterRow (p : Parameter) : String :=
  let required := if p.required then "✓" else ""
  let desc := p.description
    ++ (if p.enum ≠ [] then " Enum: `" ++ goJoin p.enum "`, `" ++ "`" else "")
  "| " ++ p.name ++ " | " ++ p.inLoc ++ " | " ++ p.type ++ " | " ++ required
    ++ " | " ++ desc ++ " |\n"

/-- The per-status-code blocks of the Responses section (generator.go
lines 226-236), iterated over the lexicographically sorted codes; a
missing code lookup yields the Go zero `Response` (unreachable, the codes
come from the same map). -/
def responseBlocks (responses : List (String × Response)) (codes : List String) : String :=
  match codes with
  | [] => ""
  | code :: rest =>
    let resp := (goMapGet responses code).getD ⟨"", []⟩
    "**" ++ code ++ "** - " ++ resp.description ++ "\n\n"
      ++ contentBlocks resp.content
      ++ responseBlocks responses rest

/-- Go `generateEndpoint` (generator.go lines 162-244; textually identical
in part_001 lines 190-272 apart from calling the grouped schema-doc
renderer). -/
def generateEndpoint (g : Generator) (ep : Endpoint) : String :=
  let header := "## " ++ ep.method ++ " " ++ ep.path
    ++ (if ep.summary ≠ "" then " - " ++ ep.summary else "")
    ++ (if ep.deprecated then " ⚠️ DEPRECATED" else "")
  header ++ "\n\n"
    ++ (if ep.description ≠ "" then ep.description ++ "\n\n" else "")
    ++ (if ep.parameters ≠ [] then
          "### Parameters\n\n| Name | In | Type | Required | Description |\n|------|-----|------|----------|-------------|\n"
            ++ goJoin (ep.parameters.map parameterRow) "" ++ "\n"
        else "")
    ++ (match ep.requestBody with
        | some rb =>
          "### Request Body\n\n"
            ++ (if rb.description ≠ "" then rb.description ++ "\n\n" else "")
            ++ contentBlocks rb.content
        | none => "")
    ++ (if ep.responses ≠ [] then
          "### Responses\n\n"
            ++ responseBlocks ep.responses (sortStrings (ep.responses.map Prod.fst))
        else "")
    ++ "### Example\n\n"
    ++ generateCurlExample g ep

/-! ### Helper lemmas -/

theorem perm_pair_cases {α : Type} {a b : α} {l : List α} (h : l.Perm [a, b]) :
    l = [a, b] ∨ l = [b, a] := by
  classical
  have hlen : l.length = 2 := by simpa using h.length_eq
  obtain ⟨x, y, rfl⟩ := List.length_eq_two.mp hlen
  have hx : x = a ∨ x = b := by
    have : x ∈ [a, b] := h.subset (by simp)
    simpa using this
  have hy : y = a ∨ y = b := by
    have : y ∈ [a, b] := h.subset (by simp)
    simpa using this
  rcases hx with rfl | rfl <;> rcases hy with h2 | h2 <;> subst h2
  · -- [a, a] ~ [a, b] forces b = a
    have hc := h.count_eq b
    simp [List.count_cons] at hc
    subst hc
    exact Or.inl rfl
  · exact Or.inl rfl
  · exact Or.inr rfl
  · -- [b, b] ~ [a, b] forces a = b
    have hc := h.count_eq a
    simp [List.count_cons] at hc
    subst hc
    exact Or.inl rfl

/-- The body of a JSON string literal after its opening quote: escape
pairs consume two characters, a lone closing quote ends the literal, and
a raw interior quote or a dangling escape is ill-formed. -/
def jsonStringBody : List Char → Bool
  | [] => false
  | ['"'] => true
  | '"' :: _ :: _ => false
  | ['\\'] => false
  | '\\' :: _ :: rest => jsonStringBody rest
  | _ :: rest => jsonStringBody rest

/-- Modelled from the reference of the claim to well-formed JSON (RFC 8259
string grammar): the output is a single JSON string literal. -/
def isJSONStringLiteral (out : String) : Bool :=
  match out.data with
  | '"' :: rest => jsonStringBody rest
  | _ => false

/-! ### Concrete fixtures used by witnesses and counterexamples -/

def emptyEndpoint : Endpoint :=
  { method := "GET", path := "", summary := "", description := "", tags := [],
    parameters := [], requestBody := none, responses := [], deprecated := false }

def epUsers1 : Endpoint := { emptyEndpoint with path := "/users", tags := ["users"] }

def epUsers2 : Endpoint :=
  { emptyEndpoint with path := "/users/\x7bid\x7d", tags := ["users"] }

def epOrders : Endpoint := { emptyEndpoint with path := "/orders", tags := ["orders"] }

def epMulti : Endpoint := { emptyEndpoint with path := "/users", tags := ["users", "orders"] }

def epNoTags : Endpoint := { emptyEndpoint with path := "/misc" }

def emptyConfig : Config :=
  { source := "", output := "", baseURL := "", docsBaseURL := "", title := "",
    language := "", groupBy := "", skipValidation := false }

def emptyAPI : API :=
  { title := "", description := "", version := "", baseURL := "", tags := [],
    endpoints := [], securitySchemes := [] }

/-! ### Claim theorems -/

/-- C10: `formatExample` wraps a string example in bare double quotes with
no escaping of quotes, backslashes or newlines, so a value containing a
double quote renders to output that is not a well-formed JSON string
literal; numeric and boolean examples print via the default Go `%v`
formatting. -/
theorem formatExample_no_escaping :
    (∀ s : String, formatExample (.str s) = "\"" ++ s ++ "\"")
  ∧ (∀ r : String, formatExample (.num r) = r)
  ∧ (∀ b : Bool, formatExample (.boolV b) = if b then "true" else "false")
  ∧ formatExample (.str "a\"b") = "\"a\"b\""
  ∧ isJSONStringLiteral (formatExample (.str "a\"b")) = false
  ∧ isJSONStringLiteral (formatExample (.str "ok")) = true := by
  refine ⟨fun s => rfl, fun r => rfl, fun b => rfl, rfl, by decide, by decide⟩

/-- C8: the group filename computed by `getEndpointBasedFilename` agrees,
for every group, with the derivation described by the spec (strip the
leading separator, split on `/`, drop `\x7b`-segments, join the first two
remaining segments with `-`, lowercase; `root` when no segments remain;
`other` for an empty group). -/
theorem getEndpointBasedFilename_spec_equiv (endpoints : List Endpoint) :
    getEndpointBasedFilename endpoints = specGroupFilename endpoints := by
  cases endpoints with
  | nil => rfl
  | cons first rest =>
    simp only [getEndpointBasedFilename, specGroupFilename]
    cases hp : goSplit (trimPrefixGo first.path "/") "/" with
    | nil => simp
    | cons a l =>
      cases hf : (a :: l).filter (fun part => !hasPrefixGo part "\x7b") with
      | nil => simp [hf]
      | cons c cs =>
        cases cs with
        | nil => simp [hf]
        | cons c2 cs2 =>
          have hge : ¬ (cs2.length + 1 + 1 < 2) := by omega
          simp [hf, hge, List.take]

/-- C5: `groupByTags` files a tagless endpoint exactly under the synthetic
tag `other`, files a tagged endpoint under every one of its tags
(duplicated, not deduplicated), and the scenario of two `users` endpoints
plus one `orders` endpoint yields exactly the two group keys `users` and
`orders`, while a `["users","orders"]` endpoint appears in both groups. -/
theorem groupByTags_partition :
    (∀ (eps : List Endpoint) (ep : Endpoint), ep ∈ eps → ep.tags = [] →
        ep ∈ groupMembers eps "other")
  ∧ (∀ (eps : List Endpoint) (ep : Endpoint) (t : String), ep ∈ eps → t ∈ ep.tags →
        ep ∈ groupMembers eps t)
  ∧ (∀ (eps : List Endpoint) (ep : Endpoint) (t : String), ep.tags = [] →
        ep ∈ groupMembers eps t → t = "other")
  ∧ groupKeys [epUsers1, epUsers2, epOrders] = ["users", "orders"]
  ∧ (groupKeys [epUsers1, epUsers2, epOrders]).length = 2
  ∧ groupMembers [epMulti, epOrders] "users" = [epMulti]
  ∧ groupMembers [epMulti, epOrders] "orders" = [epMulti, epOrders] := by
  refine ⟨?_, ?_, ?_, by rfl, by rfl, by rfl, by rfl⟩
  · intro eps ep hmem htags
    simp only [groupMembers, List.mem_flatMap]
    exact ⟨ep, hmem, by simp [tagsOrOther, htags]⟩
  · intro eps ep t hmem htag
    have htags : ep.tags ≠ [] := by
      intro h
      rw [h] at htag
      simp at htag
    simp only [groupMembers, List.mem_flatMap]
    refine ⟨ep, hmem, ?_⟩
    simp [tagsOrOther, htags, List.mem_filter, htag]
  · intro eps ep t htags hmem
    simp only [groupMembers, List.mem_flatMap] at hmem
    obtain ⟨x, _, hx⟩ := hmem
    simp only [List.mem_map] at hx
    obtain ⟨tag, htag, hxep⟩ := hx
    subst hxep
    rw [List.mem_filter] at htag
    obtain ⟨htag1, htag2⟩ := htag
    simp only [tagsOrOther, htags, if_pos] at htag1
    simp only [List.mem_singleton] at htag1
    subst htag1
    have h5 : "other" = t := by simpa using htag2
    exact h5.symm

/-- Witness for the grouping theorem at concrete endpoints. -/
theorem groupByTags_partition_witness :
    epNoTags ∈ groupMembers [epNoTags] "other"
  ∧ epMulti ∈ groupMembers [epMulti, epOrders] "orders"
  ∧ "other" = "other" :=
  ⟨groupByTags_partition.1 [epNoTags] epNoTags (by simp) rfl,
   groupByTags_partition.2.1 [epMulti, epOrders] epMulti "orders" (by simp)
     (by show "orders" ∈ epMulti.tags; simp [epMulti]),
   groupByTags_partition.2.2.1 [epNoTags] epNoTags "other" rfl
     (groupByTags_partition.1 [epNoTags] epNoTags (by simp) rfl)⟩

def mtEmpty : MediaType := { schema := none, exampleVal := none }

def rbJsonXml : RequestBody :=
  { description := "", required := false,
    content := [("application/json", mtEmpty), ("application/xml", mtEmpty)] }

def rbXmlJson : RequestBody :=
  { description := "", required := false,
    content := [("application/xml", mtEmpty), ("application/json", mtEmpty)] }

def epBodyJsonXml : Endpoint :=
  { emptyEndpoint with path := "/pets", requestBody := some rbJsonXml }

def epBodyXmlJson : Endpoint :=
  { emptyEndpoint with path := "/pets", requestBody := some rbXmlJson }

def gPlain : Generator := { cfg := emptyConfig, api := { emptyAPI with baseURL := "https://api.test" } }

/-- C4: `generateEndpoint` iterates the request-body content-type map in
the map iteration order — it does not sort it (unlike response status
codes) — so the two iteration orders of the same two-entry Go map yield
different document bytes; Go randomizes map iteration order, so the
output is not reproducible across runs. -/
theorem generateEndpoint_content_order_dependent :
    generateEndpoint gPlain epBodyJsonXml ≠ generateEndpoint gPlain epBodyXmlJson := by
  decide

def epGetX : Endpoint := { emptyEndpoint with path := "/x", method := "GET" }
def epDelX : Endpoint := { emptyEndpoint with path := "/x", method := "DELETE" }
def epFooX : Endpoint := { emptyEndpoint with path := "/x", method := "FOO" }
def epBarX : Endpoint := { emptyEndpoint with path := "/x", method := "BAR" }

/-- C6 counterexample: the comparator gives both unknown methods the same
precedence 99, and `sort.Slice` (an unstable sort) only promises a
comparator-sorted permutation; the reversed order of two same-path
unknown-method endpoints satisfies that contract, so the code does not
guarantee that such ties keep their original relative order. -/
theorem sortSlice_stability_refuted :
    SortSliceSpec [epFooX, epBarX] [epBarX, epFooX]
  ∧ [epBarX, epFooX] ≠ [epFooX, epBarX] := by
  refine ⟨⟨List.Perm.swap epFooX epBarX [], ?_⟩, ?_⟩
  · refine List.Pairwise.cons ?_ (List.Pairwise.cons (by simp) List.Pairwise.nil)
    intro b hb
    simp only [List.mem_singleton] at hb
    subst hb
    show ¬ lessEndpoint epFooX epBarX
    decide
  · intro h
    have hm := congrArg (fun l => (l.headD emptyEndpoint).method) h
    simp [epFooX, epBarX, emptyEndpoint] at hm

/-- C6 amended: every output allowed by the `sort.Slice` contract is
sorted by path ascending with ties ordered by `methodOrder`
(GET, POST, PUT, PATCH, DELETE in this order, anything else at 99); for a
same-path DELETE/GET pair the only output allowed is GET-first;
only the preservation of the original relative order among same-path
unknown-method endpoints is not guaranteed, because `sort.Slice` is
unstable. -/
theorem sortEndpoints_ordering :
    (∀ (input output : List Endpoint), SortSliceSpec input output →
      output.Pairwise (fun a b =>
        a.path < b.path ∨ (a.path = b.path ∧ methodOrder a.method ≤ methodOrder b.method)))
  ∧ methodOrder "GET" = 1 ∧ methodOrder "POST" = 2 ∧ methodOrder "PUT" = 3
  ∧ methodOrder "PATCH" = 4 ∧ methodOrder "DELETE" = 5
  ∧ (∀ m : String, m ≠ "GET" → m ≠ "POST" → m ≠ "PUT" → m ≠ "PATCH" → m ≠ "DELETE" →
      methodOrder m = 99)
  ∧ (∀ output, SortSliceSpec [epDelX, epGetX] output → output = [epGetX, epDelX]) := by
  refine ⟨?_, rfl, rfl, rfl, rfl, rfl, ?_, ?_⟩
  · intro input output hspec
    refine hspec.2.imp ?_
    intro a b hnl
    unfold lessEndpoint at hnl
    by_cases hpath : b.path = a.path
    · rw [if_pos hpath] at hnl
      exact Or.inr ⟨hpath.symm, le_of_not_lt hnl⟩
    · rw [if_neg hpath] at hnl
      exact Or.inl (lt_of_le_of_ne (le_of_not_lt hnl) (fun h => hpath h.symm))
  · intro m h1 h2 h3 h4 h5
    simp [methodOrder, h1, h2, h3, h4, h5]
  · intro output hspec
    rcases perm_pair_cases hspec.1 with h | h
    · exfalso
      subst h
      have hp := hspec.2
      have hno : ¬ lessEndpoint epGetX epDelX :=
        List.rel_of_pairwise_cons hp (show epGetX ∈ [epGetX] by simp)
      exact hno (by decide)
    · exact h

/-- Witness for the ordering theorem at a concrete DELETE/GET input. -/
theorem sortEndpoints_ordering_witness :
    ([epGetX, epDelX].Pairwise (fun a b =>
        a.path < b.path ∨ (a.path = b.path ∧ methodOrder a.method ≤ methodOrder b.method)))
  ∧ methodOrder "FOO" = 99
  ∧ [epGetX, epDelX] = [epGetX, epDelX] := by
  have hspec : SortSliceSpec [epDelX, epGetX] [epGetX, epDelX] := by
    refine ⟨List.Perm.swap epDelX epGetX [], ?_⟩
    refine List.Pairwise.cons ?_ (List.Pairwise.cons (by simp) List.Pairwise.nil)
    intro b hb
    simp only [List.mem_singleton] at hb
    subst hb
    show ¬ lessEndpoint epDelX epGetX
    decide
  exact ⟨sortEndpoints_ordering.1 [epDelX, epGetX] [epGetX, epDelX] hspec,
    sortEndpoints_ordering.2.2.2.2.2.2.1 "FOO" (by decide) (by decide) (by decide) (by decide)
      (by decide),
    sortEndpoints_ordering.2.2.2.2.2.2.2 [epGetX, epDelX] hspec⟩

def paramId : Parameter :=
  { name := "id", inLoc := "path", description := "", required := true, type := "integer",
    format := "", enum := [], default := none, exampleVal := none }

def schemeApiKey : SecurityScheme :=
  { name := "apiKey", type := "apiKey", description := "", inLoc := "header",
    paramName := "X-API-Key", scheme := "" }

def apiC7 : API :=
  { emptyAPI with baseURL := "https://api.example.com", securitySchemes := [schemeApiKey] }

def gC7 : Generator := { cfg := emptyConfig, api := apiC7 }

def epGetUserById : Endpoint :=
  { emptyEndpoint with method := "GET", path := "/users/\x7bid\x7d", parameters := [paramId] }

/-- C7: for `GET /users/\x7bid\x7d` with an integer path parameter without an
example and an apiKey/header/X-API-Key scheme, the synthesized command
example uses the URL `…/users/1` and carries the `X-API-Key: YOUR_API_KEY`
header; in general path parameters substitute their own example, else `1`
for integers, else the literal `example`, and the single auth header
comes from the first matching scheme in declared order. -/
theorem generateCurlExample_scenario :
    generateCurlExample gC7 epGetUserById
      = "```bash\ncurl -X GET \"https://api.example.com/users/1\" \\\n  -H \"Content-Type: application/json\" \\\n  -H \"X-API-Key: YOUR_API_KEY\"\n```\n\n"
  ∧ (∀ (p : Parameter) (ex : ExampleValue), p.exampleVal = some ex →
      pathParamValue p = sprintfV ex)
  ∧ (∀ p : Parameter, p.exampleVal = none → p.type = "integer" → pathParamValue p = "1")
  ∧ (∀ p : Parameter, p.exampleVal = none → p.type ≠ "integer" →
      pathParamValue p = "example")
  ∧ (∀ schemes : List SecurityScheme,
      authHeaderGo schemes =
        match schemes.find? (fun s =>
            decide (s.type = "apiKey" ∧ s.inLoc = "header")
              || decide (s.type = "http" ∧ s.scheme = "bearer")) with
        | some s =>
          if s.type = "apiKey" ∧ s.inLoc = "header" then
            " \\\n  -H \"" ++ s.paramName ++ ": YOUR_API_KEY\""
          else " \\\n  -H \"Authorization: Bearer YOUR_TOKEN\""
        | none => "") := by
  refine ⟨by decide, ?_, ?_, ?_, ?_⟩
  · intro p ex h
    simp [pathParamValue, h]
  · intro p h ht
    simp [pathParamValue, h, ht]
  · intro p h ht
    simp [pathParamValue, h, ht]
  · intro schemes
    induction schemes with
    | nil => rfl
    | cons s rest ih =>
      by_cases h1 : s.type = "apiKey" ∧ s.inLoc = "header"
      · simp [authHeaderGo, List.find?_cons, h1]
      · by_cases h2 : s.type = "http" ∧ s.scheme = "bearer"
        · simp [authHeaderGo, List.find?_cons, h1, h2]
        · simp [authHeaderGo, List.find?_cons, h1, h2, ih]

/-- Witness for the command-example theorem at concrete parameters. -/
theorem generateCurlExample_scenario_witness :
    pathParamValue paramId = "1"
  ∧ pathParamValue { paramId with type := "string" } = "example"
  ∧ pathParamValue { paramId with exampleVal := some (.num "42") } = sprintfV (.num "42") :=
  ⟨generateCurlExample_scenario.2.2.1 paramId rfl rfl,
   generateCurlExample_scenario.2.2.2.1 { paramId with type := "string" } rfl (by decide),
   generateCurlExample_scenario.2.1 { paramId with exampleVal := some (.num "42") }
     (.num "42") rfl⟩

def strSchema : Schema := .mk "string" "" "" [] none [] [] none ""
def intSchema : Schema := .mk "integer" "" "" [] none [] [] none ""
def unknownSchema : Schema := .mk "weird" "" "" [] none [] [] none ""
def arrayNoItems : Schema := .mk "array" "" "" [] none [] [] none ""
def emptyTypeSchema : Schema := .mk "" "" "" [] none [] [] none ""
def objNoProps : Schema := .mk "object" "" "" [] none [] [] none ""

/-- C9: every renderer entry point is a total function (it returns a
string for every input); a nil schema yields empty output or the literal
`null`, an unknown schema type renders as `null`, an array schema with
missing items renders as `[]`, and an empty or object-typed schema with
no properties renders as `\x7b\x7d` — at the renderer entry points
`renderJSONSchema` and `getTypeExample`, with `renderPropertyValue` and
`generateSchemaDoc` returning their own nil fallbacks. -/
theorem renderer_totality_fallbacks :
    getTypeExample none = "null"
  ∧ (∀ i m : Nat, renderPropertyValue none i m = "null")
  ∧ (∀ i m : Nat, renderJSONSchema none i m = "")
  ∧ (∀ d : Nat, generateSchemaDoc none d = "")
  ∧ (∀ (s : Schema) (i m : Nat), s.exampleVal = none → s.enum = [] →
      s.type ≠ "string" → s.type ≠ "integer" → s.type ≠ "number" → s.type ≠ "boolean" →
      s.type ≠ "array" → s.type ≠ "object" → s.type ≠ "" →
      getTypeExample (some s) = "null"
        ∧ (i ≤ m * 2 → renderJSONSchema (some s) i m = "null"))
  ∧ (∀ (s : Schema) (i m : Nat), s.type = "array" → s.items = none →
      (s.exampleVal = none → s.enum = [] → getTypeExample (some s) = "[]")
        ∧ (i ≤ m * 2 → renderJSONSchema (some s) i m = "[]"))
  ∧ (∀ (s : Schema) (i m : Nat), s.type = "object" → s.properties = [] →
      (i ≤ m * 2 → renderJSONSchema (some s) i m = "\x7b\x7d")
        ∧ (s.exampleVal = none → s.enum = [] → getTypeExample (some s) = "\x7b\x7d"))
  ∧ (∀ (s : Schema) (i m : Nat), s.type = "" → s.exampleVal = none → s.enum = [] →
      getTypeExample (some s) = "\x7b\x7d"
        ∧ (i ≤ m * 2 → renderJSONSchema (some s) i m = "\x7b\x7d")) := by
  refine ⟨by simp [getTypeExample], fun i m => by simp [renderPropertyValue],
    fun i m => by simp [renderJSONSchema], fun d => by simp [generateSchemaDoc],
    ?_, ?_, ?_, ?_⟩
  · intro s i m hex hen h1 h2 h3 h4 h5 h6 h7
    have hty : getTypeExample (some s) = "null" := by
      simp [getTypeExample, hex, hen, h1, h2, h3, h4, h5, h6, h7]
    refine ⟨hty, fun hle => ?_⟩
    have hng : ¬ i > m * 2 := by omega
    simp [renderJSONSchema, hng, h5, h6, hty]
  · intro s i m hty hitems
    cases s with
    | mk t0 f0 d0 p0 i0 r0 e0 ex0 rf0 =>
      simp only [Schema.type] at hty
      simp only [Schema.items] at hitems
      subst hty
      subst hitems
      constructor
      · intro hex hen
        simp only [Schema.exampleVal] at hex
        simp only [Schema.enum] at hen
        subst hex
        subst hen
        simp [getTypeExample, Schema.exampleVal, Schema.enum, Schema.type, Schema.format,
          Schema.items]
      · intro hle
        have hng : ¬ i > m * 2 := by omega
        simp [renderJSONSchema, hng, Schema.type, Schema.properties, Schema.items]
  · intro s i m hty hprops
    constructor
    · intro hle
      have hng : ¬ i > m * 2 := by omega
      simp [renderJSONSchema, hng, hty, hprops]
    · intro hex hen
      simp [getTypeExample, hex, hen, hty, hprops]
  · intro s i m hty hex hen
    have hg : getTypeExample (some s) = "\x7b\x7d" := by
      simp [getTypeExample, hex, hen, hty]
    refine ⟨hg, fun hle => ?_⟩
    have hng : ¬ i > m * 2 := by omega
    simp [renderJSONSchema, hng, hty, hg]

/-- Witness for the totality theorem at concrete zero-value schemas. -/
theorem renderer_totality_fallbacks_witness :
    (getTypeExample (some unknownSchema) = "null"
      ∧ (0 ≤ 4 * 2 → renderJSONSchema (some unknownSchema) 0 4 = "null"))
  ∧ ((arrayNoItems.exampleVal = none → arrayNoItems.enum = [] →
        getTypeExample (some arrayNoItems) = "[]")
      ∧ (0 ≤ 4 * 2 → renderJSONSchema (some arrayNoItems) 0 4 = "[]"))
  ∧ ((0 ≤ 4 * 2 → renderJSONSchema (some objNoProps) 0 4 = "\x7b\x7d")
      ∧ (objNoProps.exampleVal = none → objNoProps.enum = [] →
          getTypeExample (some objNoProps) = "\x7b\x7d"))
  ∧ (getTypeExample (some emptyTypeSchema) = "\x7b\x7d"
      ∧ (0 ≤ 4 * 2 → renderJSONSchema (some emptyTypeSchema) 0 4 = "\x7b\x7d")) :=
  ⟨renderer_totality_fallbacks.2.2.2.2.1 unknownSchema 0 4 rfl rfl (by decide) (by decide)
      (by decide) (by decide) (by decide) (by decide) (by decide),
   renderer_totality_fallbacks.2.2.2.2.2.1 arrayNoItems 0 4 rfl rfl,
   renderer_totality_fallbacks.2.2.2.2.2.2.1 objNoProps 0 4 rfl rfl,
   renderer_totality_fallbacks.2.2.2.2.2.2.2 emptyTypeSchema 0 4 rfl rfl rfl⟩

def objWithExample : Schema :=
  .mk "object" "" "" [("a", strSchema)] none [] [] (some (.str "X")) ""

/-- C2 counterexample: at the root of a render call, an object schema with
properties renders structurally and its explicit example is ignored —
`renderJSONSchema` never consults the example of the root node in its object
branch, contradicting the claimed precedence there. -/
theorem root_object_example_ignored :
    renderJSONSchema (some objWithExample) 0 4 = "\x7b\n  \"a\": \"string\"\n\x7d"
  ∧ renderJSONSchema (some objWithExample) 0 4 ≠ formatExample (.str "X") := by
  constructor <;>
    simp +decide [renderJSONSchema, renderProps, renderPropertyValue, getTypeExample,
      lookupProp, goMapGet, sortStrings, List.insertionSort, List.orderedInsert, strRepeat,
      objWithExample, strSchema, formatExample,
      Schema.type, Schema.properties, Schema.exampleVal, Schema.enum, Schema.format,
      Schema.items]

/-- C2 amended: an explicit example takes precedence at property
positions (`renderPropertyValue`) and at non-structural nodes
(`getTypeExample`), and with no example a non-empty enum renders as its
first value quoted; but at the root of a render call the object branch of
`renderJSONSchema` renders structurally irrespective of the
example. -/
theorem example_precedence_characterization :
    (∀ (p : Schema) (i m : Nat) (ex : ExampleValue), p.exampleVal = some ex →
      renderPropertyValue (some p) i m = formatExample ex)
  ∧ (∀ (s : Schema) (ex : ExampleValue), s.exampleVal = some ex →
      getTypeExample (some s) = formatExample ex)
  ∧ (∀ (t f d : String) (props : List (String × Schema)) (it : Option Schema)
        (req en : List String) (ex1 ex2 : Option ExampleValue) (rf : String) (i m : Nat),
      t = "object" → props ≠ [] →
      renderJSONSchema (some (.mk t f d props it req en ex1 rf)) i m
        = renderJSONSchema (some (.mk t f d props it req en ex2 rf)) i m)
  ∧ (∀ (s : Schema) (e : String) (rest : List String), s.exampleVal = none →
      s.enum = e :: rest → getTypeExample (some s) = "\"" ++ e ++ "\"") := by
  refine ⟨?_, ?_, ?_, ?_⟩
  · intro p i m ex h
    simp [renderPropertyValue, h]
  · intro s ex h
    simp [getTypeExample, h]
  · intro t f d props it req en ex1 ex2 rf i m ht hp
    subst ht
    simp [renderJSONSchema, Schema.type, Schema.properties, hp]
  · intro s e rest hex hen
    simp [getTypeExample, hex, hen]

/-- Witness for the example-precedence theorem at concrete schemas. -/
theorem example_precedence_characterization_witness :
    renderPropertyValue (some objWithExample) 1 4 = formatExample (.str "X")
  ∧ getTypeExample (some objWithExample) = formatExample (.str "X")
  ∧ renderJSONSchema
        (some (.mk "object" "" "" [("a", strSchema)] none [] [] (some (.str "X")) "")) 0 4
      = renderJSONSchema (some (.mk "object" "" "" [("a", strSchema)] none [] [] none "")) 0 4
  ∧ getTypeExample (some (.mk "string" "" "" [] none [] ["red", "blue"] none ""))
      = "\"" ++ "red" ++ "\"" :=
  ⟨example_precedence_characterization.1 objWithExample 1 4 (.str "X") rfl,
   example_precedence_characterization.2.1 objWithExample (.str "X") rfl,
   example_precedence_characterization.2.2.1 "object" "" "" [("a", strSchema)] none [] []
     (some (.str "X")) none "" 0 4 rfl (by decide),
   example_precedence_characterization.2.2.2 (.mk "string" "" "" [] none [] ["red", "blue"] none "")
     "red" ["blue"] rfl rfl⟩

def chainSchema : Nat → Schema
  | 0 => strSchema
  | n + 1 => .mk "object" "" "" [("a", chainSchema n)] none [] [] none ""

/-- C1 counterexample: with the fixed constant 4, an object node five
levels of nesting below the root still expands structurally instead of
rendering its primitive fallback, so expansion is not capped at 4 levels;
and the grouped-generator schema-doc call site does not pass the
constant — at the top level it renders with `maxDepth = 0` and produces
different bytes than the generator.go call site on the same schema. -/
theorem four_level_cap_refuted :
    renderPropertyValue (some (chainSchema 1)) 5 4
      = "\x7b\n            \"a\": \"string\"\n          \x7d"
  ∧ renderPropertyValue (some (chainSchema 1)) 5 4 ≠ "\x7b\x7d"
  ∧ renderPropertyValue (some (chainSchema 1)) 5 4 ≠ "null"
  ∧ generateSchemaDocGrouped (some (chainSchema 2)) 0 ≠ generateSchemaDoc (some (chainSchema 2)) 0 := by
  refine ⟨?_, ?_, ?_, ?_⟩ <;>
    simp +decide [renderJSONSchema, renderProps, renderPropertyValue, getTypeExample,
      lookupProp, goMapGet, sortStrings, List.insertionSort, List.orderedInsert, strRepeat,
      chainSchema, strSchema, generateSchemaDoc, generateSchemaDocGrouped, maxNestedDepth,
      generateFieldsTable, fieldsTableRow, goJoin,
      Schema.type, Schema.properties, Schema.exampleVal, Schema.enum, Schema.format,
      Schema.items, Schema.description]

theorem renderJSONSchema_beyond_ceiling (os : Option Schema) (i m : Nat) (h : m * 2 < i) :
    renderJSONSchema os i m = "" := by
  cases os with
  | none => simp [renderJSONSchema]
  | some s => simp [renderJSONSchema, h]

/-- One unfolding of the array-of-objects branch of `renderJSONSchema`
(generator.go lines 319-322): below the guard, an array schema whose
items are an object with properties emits its brackets and recurses into
the items at `indent + 1`. -/
theorem renderJSONSchema_array_obj (t f d : String) (props : List (String × Schema))
    (it : Schema) (req en : List String) (ex : Option ExampleValue) (rf : String)
    (i m : Nat) (hle : ¬ i > m * 2) (hty : t = "array") (hit : it.type = "object")
    (hprops : it.properties ≠ []) :
    renderJSONSchema (some (.mk t f d props (some it) req en ex rf)) i m
      = "[\n" ++ strRepeat "  " i ++ "  " ++ renderJSONSchema (some it) (i + 1) m
          ++ "\n" ++ strRepeat "  " i ++ "]" := by
  subst hty
  cases it with
  | mk ti tf td tp tit tr te tex trf =>
    simp only [Schema.type] at hit
    simp only [Schema.properties] at hprops
    subst hit
    conv_lhs => rw [renderJSONSchema.eq_def]
    simp [hle, hprops, Schema.type, Schema.properties, Schema.items]

/-- Beyond the ceiling, an array property node with object items renders
the empty string: `renderPropertyValue` has no indent guard in its array
branch and hands the node to `renderJSONSchema`, whose guard fires. -/
theorem renderPropertyValue_array_obj_beyond (p it : Schema) (i m : Nat)
    (hex : p.exampleVal = none) (hty : p.type = "array") (hitems : p.items = some it)
    (hit : it.type = "object") (hprops : it.properties ≠ []) (h : m * 2 < i) :
    renderPropertyValue (some p) i m = "" := by
  have hno : ¬ (p.type = "object" ∧ p.properties ≠ [] ∧ i < m * 2) := by
    rw [hty]
    rintro ⟨hc, -⟩
    exact absurd hc (by decide)
  simp [renderPropertyValue, hex, hno, hty, hitems, hit, hprops,
    renderJSONSchema_beyond_ceiling (some p) i m h]

def arrObjItems : Schema := .mk "array" "" "" [] (some (chainSchema 1)) [] [] none ""

def arrStrItems : Schema := .mk "array" "" "" [] (some strSchema) [] [] none ""

def objItemWithExample : Schema :=
  .mk "object" "" "" [("a", strSchema)] none [] [] (some (.num "42")) ""

def arrObjItemsEx : Schema := .mk "array" "" "" [] (some objItemWithExample) [] [] none ""

/-- C1 amended: structural expansion stops once the indent depth exceeds
`maxDepth*2`, and both generator.go call sites (schema documentation and
command-example body) pass the fixed constant `maxNestedDepth = 4`; since
the indent grows by one per object/array nesting level, expansion is
capped at 8 levels of nesting from the root of a render call, not 4 (an
object property node still expands at every indent below 8).  The
degradation at the ceiling is type-specific rather than uniformly the
primitive fallback: any node at indent `> maxDepth*2` renders empty in
`renderJSONSchema`; a non-array property node at indent `≥ maxDepth*2`
no longer expands and renders via `getTypeExample` (with `null` replacing
an empty result); an array property node has no indent guard of its own —
with no items it renders `[\x7b\x7d]` and with non-object items a
one-element array of the item example, at every indent, while with object
items it still emits its brackets at indent `= maxDepth*2` (the item
object inside renders empty) and renders the empty string at indent
`> maxDepth*2`, which the property loop replaces with the type fallback
`[\x7b\x7d]` rather than `getTypeExample`.  The constant does not govern
the grouped generator: its schema-doc call site passes its own depth
argument (0 at the top level) as `maxDepth`, and its command-example body
passes 2. -/
theorem renderJSONSchema_depth_ceiling :
    (∀ (os : Option Schema) (i m : Nat), m * 2 < i → renderJSONSchema os i m = "")
  ∧ (∀ (s : Schema) (i m : Nat), m * 2 ≤ i → s.exampleVal = none → s.type ≠ "array" →
      renderPropertyValue (some s) i m
        = (if getTypeExample (some s) = "" then "null" else getTypeExample (some s)))
  ∧ (∀ (s : Schema) (i m : Nat), i < m * 2 → s.exampleVal = none → s.type = "object" →
      s.properties ≠ [] → renderPropertyValue (some s) i m = renderJSONSchema (some s) i m)
  ∧ (∀ (s : Schema) (i m : Nat), s.exampleVal = none → s.type = "array" → s.items = none →
      renderPropertyValue (some s) i m = "[\x7b\x7d]")
  ∧ (∀ (s it : Schema) (i m : Nat), s.exampleVal = none → s.type = "array" →
      s.items = some it → ¬ (it.type = "object" ∧ it.properties ≠ []) →
      renderPropertyValue (some s) i m
        = "[" ++ (if getTypeExample (some it) = "" ∨ getTypeExample (some it) = "null"
                  then "\x7b\x7d" else getTypeExample (some it)) ++ "]")
  ∧ (∀ (s it : Schema) (m : Nat), s.exampleVal = none → s.type = "array" →
      s.items = some it → it.type = "object" → it.properties ≠ [] →
      renderPropertyValue (some s) (m * 2) m
        = "[\n" ++ strRepeat "  " (m * 2) ++ "  " ++ "\n" ++ strRepeat "  " (m * 2) ++ "]")
  ∧ (∀ (s it : Schema) (i m : Nat), s.exampleVal = none → s.type = "array" →
      s.items = some it → it.type = "object" → it.properties ≠ [] → m * 2 < i →
      renderPropertyValue (some s) i m = "")
  ∧ (∀ (name : String) (p it : Schema) (i m : Nat), p.exampleVal = none →
      p.type = "array" → p.items = some it → it.type = "object" → it.properties ≠ [] →
      m * 2 < i + 1 →
      renderProps [(name, p)] [name] i m
        = strRepeat "  " i ++ "  \"" ++ name ++ "\": " ++ "[\x7b\x7d]" ++ "\n")
  ∧ (∀ (s : Schema) (d : Nat), d ≤ 4 → s.type = "object" → s.properties ≠ [] →
      generateSchemaDoc (some s) d
        = "```json\n" ++ renderJSONSchema (some s) 0 maxNestedDepth ++ "```\n\n"
            ++ generateFieldsTable (some s) "")
  ∧ (∀ (s : Schema) (d : Nat), d ≤ 4 → s.type = "object" → s.properties ≠ [] →
      generateSchemaDocGrouped (some s) d
        = "```json\n" ++ renderJSONSchema (some s) 0 d ++ "```\n\n"
            ++ generateFieldsTable (some s) "") := by
  refine ⟨renderJSONSchema_beyond_ceiling, ?_, ?_, ?_, ?_, ?_, ?_, ?_, ?_, ?_⟩
  · intro s i m hle hex harr
    have h3 : ¬ (s.type = "object" ∧ s.properties ≠ [] ∧ i < m * 2) := by
      rintro ⟨-, -, h⟩
      omega
    simp [renderPropertyValue, hex, h3, harr]
  · intro s i m hi hex ht hp
    simp [renderPropertyValue, hex, ht, hp, hi]
  · intro s i m hex hty hitems
    have hno : ¬ (s.type = "object" ∧ s.properties ≠ [] ∧ i < m * 2) := by
      rw [hty]
      rintro ⟨hc, -⟩
      exact absurd hc (by decide)
    simp [renderPropertyValue, hex, hno, hty, hitems]
  · intro s it i m hex hty hitems hnot
    have hno : ¬ (s.type = "object" ∧ s.properties ≠ [] ∧ i < m * 2) := by
      rw [hty]
      rintro ⟨hc, -⟩
      exact absurd hc (by decide)
    simp [renderPropertyValue, hex, hno, hty, hitems, hnot]
  · intro s it m hex hty hitems hit hprops
    cases s with
    | mk t0 f0 d0 p0 i0 r0 e0 ex0 rf0 =>
      simp only [Schema.type] at hty
      simp only [Schema.items] at hitems
      simp only [Schema.exampleVal] at hex
      subst hty
      subst hitems
      subst hex
      cases it with
      | mk ti tf td tp tit tr te tex trf =>
        simp only [Schema.type] at hit
        simp only [Schema.properties] at hprops
        subst hit
        have h1 : renderPropertyValue
            (some (.mk "array" f0 d0 p0 (some (.mk "object" tf td tp tit tr te tex trf))
              r0 e0 none rf0)) (m * 2) m
            = renderJSONSchema
                (some (.mk "array" f0 d0 p0 (some (.mk "object" tf td tp tit tr te tex trf))
                  r0 e0 none rf0)) (m * 2) m := by
          simp [renderPropertyValue, hprops, Schema.exampleVal, Schema.type,
            Schema.properties, Schema.items]
        rw [h1,
          renderJSONSchema_array_obj "array" f0 d0 p0
            (.mk "object" tf td tp tit tr te tex trf) r0 e0 none rf0 (m * 2) m
            (by omega) rfl rfl hprops,
          renderJSONSchema_beyond_ceiling
            (some (.mk "object" tf td tp tit tr te tex trf)) (m * 2 + 1) m (by omega)]
        simp
  · intro s it i m hex hty hitems hit hprops hgt
    exact renderPropertyValue_array_obj_beyond s it i m hex hty hitems hit hprops hgt
  · intro name p it i m hex hty hitems hit hprops hgt
    have hval : renderPropertyValue (some p) (i + 1) m = "" :=
      renderPropertyValue_array_obj_beyond p it (i + 1) m hex hty hitems hit hprops hgt
    simp [renderProps, lookupProp, goMapGet, hval, hty]
  · intro s d hd ht hp
    have hng : ¬ d > 4 := by omega
    simp [generateSchemaDoc, hng, ht, hp]
  · intro s d hd ht hp
    have hng : ¬ d > 4 := by omega
    simp [generateSchemaDocGrouped, hng, ht, hp]

/-- Witness for the depth-ceiling theorem at concrete schemas, covering
each kind of node at and beyond the ceiling; the last conjunct contrasts
the loop fallback `[\x7b\x7d]` with the `getTypeExample` rendering
`[42]` of the same array node whose items carry the example 42. -/
theorem renderJSONSchema_depth_ceiling_witness :
    renderJSONSchema (some strSchema) 9 4 = ""
  ∧ renderPropertyValue (some (chainSchema 1)) 8 4
      = (if getTypeExample (some (chainSchema 1)) = "" then "null"
         else getTypeExample (some (chainSchema 1)))
  ∧ renderPropertyValue (some (chainSchema 1)) 7 4 = renderJSONSchema (some (chainSchema 1)) 7 4
  ∧ renderPropertyValue (some arrayNoItems) 9 4 = "[\x7b\x7d]"
  ∧ renderPropertyValue (some arrStrItems) 9 4
      = "[" ++ (if getTypeExample (some strSchema) = "" ∨ getTypeExample (some strSchema) = "null"
                then "\x7b\x7d" else getTypeExample (some strSchema)) ++ "]"
  ∧ renderPropertyValue (some arrObjItems) 8 4
      = "[\n" ++ strRepeat "  " 8 ++ "  " ++ "\n" ++ strRepeat "  " 8 ++ "]"
  ∧ renderPropertyValue (some arrObjItems) 9 4 = ""
  ∧ renderProps [("a", arrObjItemsEx)] ["a"] 9 4
      = strRepeat "  " 9 ++ "  \"" ++ "a" ++ "\": " ++ "[\x7b\x7d]" ++ "\n"
  ∧ generateSchemaDoc (some (chainSchema 1)) 0
      = "```json\n" ++ renderJSONSchema (some (chainSchema 1)) 0 maxNestedDepth ++ "```\n\n"
          ++ generateFieldsTable (some (chainSchema 1)) ""
  ∧ generateSchemaDocGrouped (some (chainSchema 1)) 0
      = "```json\n" ++ renderJSONSchema (some (chainSchema 1)) 0 0 ++ "```\n\n"
          ++ generateFieldsTable (some (chainSchema 1)) ""
  ∧ getTypeExample (some arrObjItemsEx) = "[42]" :=
  ⟨renderJSONSchema_depth_ceiling.1 (some strSchema) 9 4 (by omega),
   renderJSONSchema_depth_ceiling.2.1 (chainSchema 1) 8 4 (by omega) rfl (by decide),
   renderJSONSchema_depth_ceiling.2.2.1 (chainSchema 1) 7 4 (by omega) rfl rfl (by decide),
   renderJSONSchema_depth_ceiling.2.2.2.1 arrayNoItems 9 4 rfl rfl rfl,
   renderJSONSchema_depth_ceiling.2.2.2.2.1 arrStrItems strSchema 9 4 rfl rfl rfl (by decide),
   renderJSONSchema_depth_ceiling.2.2.2.2.2.1 arrObjItems (chainSchema 1) 4 rfl rfl rfl rfl
     (by decide),
   renderJSONSchema_depth_ceiling.2.2.2.2.2.2.1 arrObjItems (chainSchema 1) 9 4 rfl rfl rfl
     rfl (by decide) (by omega),
   renderJSONSchema_depth_ceiling.2.2.2.2.2.2.2.1 "a" arrObjItemsEx objItemWithExample 9 4
     rfl rfl rfl rfl (by decide) (by omega),
   renderJSONSchema_depth_ceiling.2.2.2.2.2.2.2.2.1 (chainSchema 1) 0 (by omega) rfl
     (by decide),
   renderJSONSchema_depth_ceiling.2.2.2.2.2.2.2.2.2 (chainSchema 1) 0 (by omega) rfl
     (by decide),
   by
     simp [getTypeExample, arrObjItemsEx, objItemWithExample, formatExample,
       Schema.exampleVal, Schema.enum, Schema.type, Schema.format, Schema.items]⟩

theorem goMapGet_perm {α : Type} {l₁ l₂ : List (String × α)} (h : l₁.Perm l₂) :
    (l₁.map Prod.fst).Nodup → ∀ k, goMapGet l₁ k = goMapGet l₂ k := by
  induction h with
  | nil => intro _ k; rfl
  | cons x h ih =>
    intro hn k
    obtain ⟨xk, xv⟩ := x
    have hn2 : (List.map Prod.fst _).Nodup :=
      (List.nodup_cons.mp (by simpa using hn)).2
    simp only [goMapGet]
    by_cases hk : xk = k
    · simp [hk]
    · simp only [if_neg hk]
      exact ih hn2 k
  | swap x y l =>
    intro hn k
    obtain ⟨xk, xv⟩ := x
    obtain ⟨yk, yv⟩ := y
    have hne : yk ≠ xk := by
      simp only [List.map_cons, List.nodup_cons, List.mem_cons] at hn
      exact fun he => hn.1 (Or.inl he)
    simp only [goMapGet]
    by_cases h1 : yk = k <;> by_cases h2 : xk = k
    · exact absurd (h1.trans h2.symm) hne
    · simp [h1, h2]
    · simp [h1, h2]
    · simp [h1, h2]
  | trans h1 h2 ih1 ih2 =>
    intro hn k
    have hn2 := ((h1.map Prod.fst).nodup_iff).mp hn
    exact (ih1 hn k).trans (ih2 hn2 k)

theorem sortStrings_perm_eq {l₁ l₂ : List String} (h : l₁.Perm l₂) :
    sortStrings l₁ = sortStrings l₂ :=
  List.eq_of_perm_of_sorted
    ((List.perm_insertionSort _ l₁).trans (h.trans (List.perm_insertionSort _ l₂).symm))
    (List.sorted_insertionSort _ l₁) (List.sorted_insertionSort _ l₂)

theorem renderProps_congr {props₁ props₂ : List (String × Schema)}
    (hk : ∀ k, goMapGet props₁ k = goMapGet props₂ k) :
    ∀ (names : List String) (i m : Nat),
      renderProps props₁ names i m = renderProps props₂ names i m := by
  intro names
  induction names with
  | nil => intro i m; simp [renderProps]
  | cons name rest ih =>
    intro i m
    simp only [renderProps, lookupProp]
    rw [hk name, ih]

theorem getTypeExample_congr_props (t f d : String) (p₁ p₂ : List (String × Schema))
    (it : Option Schema) (req en : List String) (ex : Option ExampleValue) (rf : String) :
    getTypeExample (some (.mk t f d p₁ it req en ex rf))
      = getTypeExample (some (.mk t f d p₂ it req en ex rf)) := by
  conv_lhs => rw [getTypeExample.eq_def]
  conv_rhs => rw [getTypeExample.eq_def]
  rfl

/-- C3: the rendered example is invariant under the iteration order of the
property map (Go map iteration order): any two orders of the same
property set — with the unique keys of a Go map — render to the same
bytes, because the names are sorted ascending before emission.  The
renderer itself is a pure function, so rendering the same Schema value
twice is byte-identical by definition. -/
theorem renderJSONSchema_perm_invariant
    (t f d : String) (props₁ props₂ : List (String × Schema)) (it : Option Schema)
    (req en : List String) (ex : Option ExampleValue) (rf : String) (i m : Nat)
    (hperm : props₁.Perm props₂) (hnd : (props₁.map Prod.fst).Nodup) :
    renderJSONSchema (some (.mk t f d props₁ it req en ex rf)) i m
      = renderJSONSchema (some (.mk t f d props₂ it req en ex rf)) i m := by
  have hsorted : sortStrings (props₁.map Prod.fst) = sortStrings (props₂.map Prod.fst) :=
    sortStrings_perm_eq (hperm.map Prod.fst)
  have hlookup := goMapGet_perm hperm hnd
  have hnil : props₁ = [] ↔ props₂ = [] := by
    constructor
    · intro h
      subst h
      exact (hperm.symm.eq_nil)
    · intro h
      subst h
      exact hperm.eq_nil
  conv_lhs => rw [renderJSONSchema.eq_def]
  conv_rhs => rw [renderJSONSchema.eq_def]
  simp only [Schema.type, Schema.properties, Schema.items, Schema.enum,
    Schema.exampleVal, Schema.format]
  by_cases hg : i > m * 2
  · simp [hg]
  · by_cases hobj : t = "object" ∧ props₁ ≠ []
    · have hobj2 : t = "object" ∧ props₂ ≠ [] := ⟨hobj.1, fun h => hobj.2 (hnil.mpr h)⟩
      rw [if_neg hg, if_neg hg, if_pos hobj, if_pos hobj2, hsorted,
        renderProps_congr hlookup]
    · have hobj2 : ¬ (t = "object" ∧ props₂ ≠ []) := fun hc =>
        hobj ⟨hc.1, fun h => hc.2 (hnil.mp h)⟩
      rw [if_neg hg, if_neg hg, if_neg hobj, if_neg hobj2]
      by_cases harr : t = "array"
      · simp [harr]
      · by_cases hot : t = "object"
        · simp [harr, hot]
        · simp only [if_neg harr, if_neg hot]
          exact getTypeExample_congr_props t f d props₁ props₂ it req en ex rf

/-- Witness: the `\x7bb, a\x7d` insertion order and the `\x7ba, b\x7d`
insertion order render identically, with `a` before `b`. -/
theorem renderJSONSchema_perm_invariant_witness :
    renderJSONSchema
        (some (.mk "object" "" "" [("b", strSchema), ("a", intSchema)] none [] [] none "")) 0 4
      = renderJSONSchema
          (some (.mk "object" "" "" [("a", intSchema), ("b", strSchema)] none [] [] none "")) 0 4
  ∧ renderJSONSchema
        (some (.mk "object" "" "" [("b", strSchema), ("a", intSchema)] none [] [] none "")) 0 4
      = "\x7b\n  \"a\": 0,\n  \"b\": \"string\"\n\x7d" := by
  constructor
  · exact renderJSONSchema_perm_invariant "object" "" ""
      [("b", strSchema), ("a", intSchema)] [("a", intSchema), ("b", strSchema)]
      none [] [] none "" 0 4
      (List.Perm.swap ("a", intSchema) ("b", strSchema) []) (by decide)
  · simp +decide [renderJSONSchema, renderProps, renderPropertyValue, getTypeExample,
      lookupProp, goMapGet, sortStrings, List.insertionSort, List.orderedInsert, strRepeat,
      strSchema, intSchema,
      Schema.type, Schema.properties, Schema.exampleVal, Schema.enum, Schema.format,
      Schema.items]
